import Mathlib

/-!
Verification of the DNA-reconstruction repository (exact algorithm and tabu
metaheuristic) against its natural-language specification.

The exact algorithm lives in `src/exact algorithm/main.py` and is embedded in
the `Exact` namespace.  The tabu metaheuristic lives in
`src/metaheuristic/tabu.py` and is embedded in the `Meta` namespace; the
helper modules it imports (`wsry.py`, `common.py`, `reconstruction_data.py`)
are not part of the sources, so the pieces of state and the overlap routine
they provide are modelled from the specification, as marked on each such
definition.

Oligos (nucleotide strings) are modelled as `List Char`; Python dictionaries
are modelled as insertion-ordered association lists.  Randomness is modelled
by explicit oracle arguments: every theorem about a randomized procedure
quantifies over all oracle values, which covers every draw the Python
`random` module can produce.
-/

namespace Exact

/-- The oligo alphabet strings of the Python code, as lists of characters. -/
abbrev Oligo := List Char

/-- Lookup in a Python-style dictionary of characters; `none` models KeyError. -/
def dict_find (d : List (Char × Char)) (c : Char) : Option Char :=
  (d.find? (fun p => p.1 == c)).map (·.2)

/-- Lookup in a Python-style dictionary from oligos to booleans. -/
def bdict_find (d : List (Oligo × Bool)) (k : Oligo) : Option Bool :=
  (d.find? (fun p => p.1 == k)).map (·.2)

/-- Python dictionary assignment `d[k] = v`: overwrite if present, else append. -/
def bdict_set (d : List (Oligo × Bool)) (k : Oligo) (v : Bool) : List (Oligo × Bool) :=
  if d.any (fun p => p.1 == k) then d.map (fun p => if p.1 == k then (p.1, v) else p)
  else d ++ [(k, v)]

/-- The `nucleotide_to_weak_strong` dictionary of `main.py`. -/
def nucleotide_to_weak_strong : List (Char × Char) :=
  [('A', 'W'), ('T', 'W'), ('C', 'S'), ('G', 'S')]

/-- The `nucleotide_to_purine_pyrimidine` dictionary of `main.py`. -/
def nucleotide_to_purine_pyrimidine : List (Char × Char) :=
  [('A', 'R'), ('G', 'R'), ('C', 'Y'), ('T', 'Y')]

/-- `WSRY.convert_oligo` of `main.py`: map every character except the last
through the dictionary, keep the last character verbatim.  `none` models the
IndexError on an empty oligo or a KeyError on a character outside the
dictionary. -/
def convert_oligo (d : List (Char × Char)) : Oligo → Option Oligo
  | [] => none
  | [c] => some [c]
  | c :: c2 :: rest =>
    match dict_find d c with
    | none => none
    | some x => (convert_oligo d (c2 :: rest)).map (x :: ·)

/-- `WSRY.connect_WS_RY` of `main.py`: zip the two oligos and translate the
four recognized symbol pairs; any other pair falls through every `elif` and
contributes nothing.  The Python function raises nothing, so the embedding is
total. -/
def connect_WS_RY : Oligo → Oligo → Oligo
  | cw :: ws, cr :: rs =>
    let rest := connect_WS_RY ws rs
    if cw = 'S' ∧ cr = 'R' then 'G' :: rest
    else if cw = 'S' ∧ cr = 'Y' then 'C' :: rest
    else if cw = 'W' ∧ cr = 'R' then 'A' :: rest
    else if cw = 'W' ∧ cr = 'Y' then 'T' :: rest
    else rest
  | _, _ => []

/-- The 4-entry lookup of the specification, stated in the spec's own words:
(S,R) gives G, (S,Y) gives C, (W,R) gives A, (W,Y) gives T, anything else is
not a valid combination.  Used to compare `connect_WS_RY` with the spec. -/
def combine_pair (cw cr : Char) : Option Char :=
  if cw = 'S' ∧ cr = 'R' then some 'G'
  else if cw = 'S' ∧ cr = 'Y' then some 'C'
  else if cw = 'W' ∧ cr = 'R' then some 'A'
  else if cw = 'W' ∧ cr = 'Y' then some 'T'
  else none

/-- The list of offsets visited by `range(probe - 1, 0, -1)` in `check_overlap`. -/
def check_overlap_offsets (probe : Nat) : List Nat :=
  (List.range (probe - 1)).map (fun i => probe - 1 - i)

/-- The loop body of `check_overlap`: on the first matching offset the code
executes `return max_overlap`, where `max_overlap` still holds its initial
value. -/
def check_overlap_go (oligo1 oligo2 : Oligo) (probe max_overlap : Nat) :
    List Nat → Nat
  | [] => 0
  | offset :: rest =>
    if List.drop (probe - offset) oligo1 = List.take offset oligo2 then max_overlap
    else check_overlap_go oligo1 oligo2 probe max_overlap rest

/-- `check_overlap` of `main.py`, embedded exactly as written: `max_overlap`
is initialized to 0, never reassigned, and returned when a suffix/prefix
match is found; 0 is also returned when the loop falls through. -/
def check_overlap (oligo1 oligo2 : Oligo) (probe : Nat) : Nat :=
  check_overlap_go oligo1 oligo2 probe 0 (check_overlap_offsets probe)

/-- The `WSRY` class state of `main.py`: the conversion dictionary, the
accumulated converted sequence `start_converted`, the used-cell dictionary
`cells_dict`, and the `path`/`depth` lists. -/
structure WSRY where
  dict_convertion : List (Char × Char)
  start_converted : Oligo
  cells_dict : List (Oligo × Bool)
  path : List Oligo
  depth : List Nat
deriving DecidableEq, Repr

/-- `WSRY.__init__` of `main.py`: convert the starting oligo, build the
used-cell dictionary over the probe cells, mark the converted start as used,
and seed `path`/`depth`.  `none` models an exception during conversion. -/
def WSRY_init (d : List (Char × Char)) (oligo : Oligo) (cells : List Oligo) :
    Option WSRY :=
  match convert_oligo d oligo with
  | none => none
  | some sc =>
    some { dict_convertion := d
           start_converted := sc
           cells_dict := bdict_set (cells.map (fun c => (c, false))) sc true
           path := [sc]
           depth := [0] }

/-- `ReconstructionData`.  Modelled from the spec: `reconstruction_data.py`
is not under `src/`; the spec gives the record fields `{start, length,
ws_probe, ry_probe}`, of which `reconstruct` reads the target `length` and
the two probes' cell lists. -/
structure RD where
  length : Nat
  WS_probe_cells : List Oligo
  RY_probe_cells : List Oligo
deriving DecidableEq, Repr

/-- `search_overlapings` of `main.py`: for each cell compute
`check_overlap(oligo, cell, len(cell))`, and record the cell when its
used-flag is false and the overlap is falsy (zero).  The overlapings
dictionary parameter is empty at both call sites, so the embedding returns
the dictionary it builds; `none` models the KeyError when a cell is missing
from `cells_dict`. -/
def search_overlapings (oligo : Oligo) (cells : List Oligo)
    (cells_dict : List (Oligo × Bool)) : Option (List (Oligo × Nat)) :=
  match cells with
  | [] => some []
  | cell :: rest =>
    let m := check_overlap oligo cell cell.length
    match bdict_find cells_dict cell with
    | none => none
    | some used =>
      match search_overlapings oligo rest cells_dict with
      | none => none
      | some r => if used = false ∧ m = 0 then some ((cell, m) :: r) else some r

/-- The value `reconstruct` returns: the RECONSTRUCTED branch returns a
6-tuple, the no-overlapings branch returns a 7-tuple that includes
`s_space_empty`, and the remaining code path falls off the end of the Python
function, returning `None`. -/
inductive RecResult where
  | done6 (is_reconstructed : Bool) (reconstructed_dna_length : Nat)
      (reconstructed_dna : Oligo) (ws ry : WSRY) (rd : RD)
  | stuck7 (is_reconstructed : Bool) (reconstructed_dna_length : Nat)
      (reconstructed_dna : Oligo) (s_space_empty : Bool) (ws ry : WSRY) (rd : RD)
  | pynone
deriving DecidableEq, Repr

/-- The statement `start_converted = start_converted[:-1] + dict[start_converted[-1]]`
in `reconstruct`: classify the trailing full-alphabet anchor character.
`none` models the IndexError on an empty sequence or the KeyError on a
character outside the dictionary. -/
def flip_last (d : List (Char × Char)) (w : WSRY) : Option WSRY :=
  match w.start_converted.getLast? with
  | none => none
  | some c =>
    (dict_find d c).map
      (fun x => { w with start_converted := w.start_converted.dropLast ++ [x] })

/-- `reconstruct` of `main.py`.  The function is not recursive in the source:
it returns early when already reconstructed or when the target length is
reached, returns the 7-tuple when either overlapings dictionary is empty, and
otherwise reaches the trailing `if ...: pass` and falls off the end
(`pynone`).  The outer `Option` is `none` exactly when the Python code would
raise. -/
def reconstruct (is_reconstructed : Bool) (reconstructed_dna_length : Nat)
    (reconstructed_dna : Oligo) (s_space_empty : Bool) (ws ry : WSRY) (rd : RD) :
    Option RecResult :=
  if is_reconstructed then
    some (.done6 is_reconstructed reconstructed_dna_length reconstructed_dna ws ry rd)
  else if rd.length = reconstructed_dna_length then
    some (.done6 true reconstructed_dna_length
      (connect_WS_RY ws.start_converted ry.start_converted) ws ry rd)
  else
    match flip_last nucleotide_to_weak_strong ws with
    | none => none
    | some ws2 =>
      match flip_last nucleotide_to_purine_pyrimidine ry with
      | none => none
      | some ry2 =>
        match search_overlapings ws2.start_converted rd.WS_probe_cells ws2.cells_dict with
        | none => none
        | some ows =>
          match search_overlapings ry2.start_converted rd.RY_probe_cells ry2.cells_dict with
          | none => none
          | some ory =>
            if ory = [] ∨ ows = [] then
              some (.stuck7 true reconstructed_dna_length reconstructed_dna
                s_space_empty ws2 ry2 rd)
            else
              some .pynone

/-- The `is_reconstructed` flag of a `reconstruct` result, when it returned a
tuple at all. -/
def resultIsRec : Option RecResult → Option Bool
  | some (.done6 b _ _ _ _ _) => some b
  | some (.stuck7 b _ _ _ _ _ _) => some b
  | _ => none

/-- The `reconstructed_dna` component of a `reconstruct` result, when it
returned a tuple at all. -/
def resultDna : Option RecResult → Option Oligo
  | some (.done6 _ _ dna _ _ _) => some dna
  | some (.stuck7 _ _ dna _ _ _ _) => some dna
  | _ => none

/-- One extension performed by the candidate loop of
`add_ongoing_vertices_to_list`: the chosen cell pair, their overlaps, and the
value of `reconstructed_dna_length` at the moment the guard was checked. -/
structure Ext where
  cell_ws : Oligo
  overlap_ws : Nat
  cell_ry : Oligo
  overlap_ry : Nat
  len_before : Nat
deriving DecidableEq, Repr

/-- Python's `max(overlapings.values())` over an association list; the values
are naturals, so folding `max` from 0 agrees with Python's `max` on every
nonempty dictionary (empty dictionaries make Python raise, and produce no
extensions here). -/
def max_value (l : List (Oligo × Nat)) : Nat :=
  l.foldl (fun acc p => max acc p.2) 0

/-- The inner `for cell_ry, overlap_ry in overlapings_ry.items()` loop of
`add_ongoing_vertices_to_list`, with the `continue` guard exactly as in the
source.  `reconstructed_dna_length` is threaded through accepted extensions
(the source adds `len(cell_ws) - overlap_ws` to it before recursing; the
recursive `reconstruct` call returns that length unchanged on its only
non-raising code path, so the accumulated value is the one the next guard
sees). -/
def ongoing_inner (max_ry rdLength : Nat) (cell_ws : Oligo) (overlap_ws : Nat) :
    List (Oligo × Nat) → Nat → List Ext × Nat
  | [], recLen => ([], recLen)
  | (cell_ry, overlap_ry) :: rest, recLen =>
    if overlap_ry ≠ max_ry ∨ overlap_ws ≠ overlap_ry ∨
        cell_ry.getLast? ≠ cell_ws.getLast? ∨
        rdLength < recLen + (cell_ws.length - overlap_ws) then
      ongoing_inner max_ry rdLength cell_ws overlap_ws rest recLen
    else
      let recLen2 := recLen + (cell_ws.length - overlap_ws)
      let r := ongoing_inner max_ry rdLength cell_ws overlap_ws rest recLen2
      (⟨cell_ws, overlap_ws, cell_ry, overlap_ry, recLen⟩ :: r.1, r.2)

/-- The outer `for cell_ws, overlap_ws in overlapings_ws.items()` loop of
`add_ongoing_vertices_to_list`, skipping cells whose overlap is not the
probe's maximum. -/
def ongoing_outer (max_ws max_ry rdLength : Nat) (ory : List (Oligo × Nat)) :
    List (Oligo × Nat) → Nat → List Ext × Nat
  | [], recLen => ([], recLen)
  | (cell_ws, overlap_ws) :: rest, recLen =>
    if overlap_ws ≠ max_ws then
      ongoing_outer max_ws max_ry rdLength ory rest recLen
    else
      let r := ongoing_inner max_ry rdLength cell_ws overlap_ws ory recLen
      let r2 := ongoing_outer max_ws max_ry rdLength ory rest r.2
      (r.1 ++ r2.1, r2.2)

/-- The sequence of extensions performed by the candidate loop of
`add_ongoing_vertices_to_list` on the given overlapings dictionaries, target
length, and initial reconstructed length. -/
def add_ongoing_extensions (ows ory : List (Oligo × Nat)) (rdLength recLen : Nat) :
    List Ext :=
  (ongoing_outer (max_value ows) (max_value ory) rdLength ory ows recLen).1

end Exact

namespace Meta

open Exact (Oligo connect_WS_RY)

/-- The overlap matcher used by the tabu module.  Modelled from the spec:
`common.py` (the `check_overlap` that `tabu.py` imports) is not under
`src/`; §4.2 of the spec defines it as the largest k with
1 ≤ k < min(len a, len b) such that the last k characters of `a` equal the
first k characters of `b`, and 0 when no such k exists, searched in
decreasing order of k. -/
def overlap_go (a b : Oligo) : Nat → Nat
  | 0 => 0
  | k + 1 =>
    if a.drop (a.length - (k + 1)) = b.take (k + 1) then k + 1
    else overlap_go a b k

/-- The overlap matcher entry point; see `overlap_go`.  Modelled from the
spec: the search starts at min(len a, len b) − 1. -/
def overlap (a b : Oligo) : Nat :=
  overlap_go a b (min a.length b.length - 1)

/-- The `WSRY` path state used by `tabu.py`.  Modelled from the spec:
`wsry.py` is not under `src/`; §3 of the spec gives the fields read by the
tabu code — the ordered oligo `path`, the parallel `depth` list, the
used-cell mapping, and the `perfect_overlap` constant (oligo length − 1). -/
structure WSRY where
  path : List Oligo
  depth : List Nat
  cells_dict : List (Oligo × Bool)
  perfect_overlap : Nat
deriving DecidableEq, Repr

/-- `WSRY.update_depth`.  Modelled from the spec (§4.3 `recompute_depth`):
walk the path and recompute every `depth[i]` for i ≥ 1 from the current
adjacent pair with the overlap matcher, with the sentinel 0 at index 0. -/
def update_depth (w : WSRY) : WSRY :=
  { w with depth :=
      match w.path with
      | [] => []
      | _ :: _ => 0 :: (w.path.zip w.path.tail).map (fun p => overlap p.1 p.2) }

/-- `WSRY.not_used_oligos`.  Modelled from the spec (§4.3 `not_used_cells`):
the cells of the probe not currently marked used, in probe order. -/
def not_used_oligos (w : WSRY) : List Oligo :=
  w.cells_dict.filterMap (fun p => if p.2 then none else some p.1)

/-- The `Tabu` object state of `tabu.py`. -/
structure Tabu where
  tabu_size : Nat
  tabu_list_ws : List Oligo
  tabu_list_ry : List Oligo
  number_of_iterations : Nat
  number_of_neighbours : Nat
deriving DecidableEq, Repr

/-- `Tabu.is_tabu` of `tabu.py`: membership in either tabu list. -/
def Tabu.is_tabu (t : Tabu) (move : Oligo) : Bool :=
  t.tabu_list_ws.contains move || t.tabu_list_ry.contains move

/-- `Tabu.add` of `tabu.py`: append both moves and drop the oldest pair when
the WS list exceeds `tabu_size`. -/
def Tabu.add (t : Tabu) (move_ws move_ry : Oligo) : Tabu :=
  let ws := t.tabu_list_ws ++ [move_ws]
  let ry := t.tabu_list_ry ++ [move_ry]
  if t.tabu_size < ws.length then
    { t with tabu_list_ws := ws.drop 1, tabu_list_ry := ry.drop 1 }
  else
    { t with tabu_list_ws := ws, tabu_list_ry := ry }

/-- The INDEX OUTSIDE CLUSTER scan shared by the insert and shift moves of
`tabu.py`: the indices 1..len(path) that are not strictly inside a cluster
(an index idx < len(path) with `depth[idx-1] == depth[idx] == perfect_overlap`
is skipped). -/
def possible_idxs (w : WSRY) : List Nat :=
  ((List.range w.path.length).map (· + 1)).filter
    (fun idx =>
      !(decide (idx ≠ w.path.length) &&
        decide (w.depth.getD (idx - 1) 0 = w.perfect_overlap) &&
        decide (w.depth.getD idx 0 = w.perfect_overlap)))

/-- `Tabu.generate_neighbour_insert_oligo` of `tabu.py`.  The
`random.shuffle` of the candidate WS oligos is modelled by the oracle
function `shuffle`; the nested loops with `continue`/first-`return` are
first-success searches. -/
def generate_neighbour_insert_oligo (ws ry : WSRY)
    (not_used_not_tabu_oligos_ws not_used_not_tabu_oligos_ry : List Oligo)
    (shuffle : List Oligo → List Oligo) : Option (WSRY × WSRY) :=
  if possible_idxs ws ≠ [] then
    (shuffle not_used_not_tabu_oligos_ws).findSome? fun tmp_oligo_ws =>
      not_used_not_tabu_oligos_ry.findSome? fun tmp_oligo_ry =>
        if tmp_oligo_ws.getLast? = tmp_oligo_ry.getLast? then
          (possible_idxs ws).findSome? fun idx_to_insert =>
            let new_ws := update_depth { ws with path := ws.path.insertIdx idx_to_insert tmp_oligo_ws }
            let new_ry := update_depth { ry with path := ry.path.insertIdx idx_to_insert tmp_oligo_ry }
            if new_ws.depth = new_ry.depth then some (new_ws, new_ry) else none
        else none
  else none

/-- `Tabu.generate_neighbour_delete_oligo` of `tabu.py`.  The retry loop over
`random.randint(1, len(ws.path) - 1)` is modelled by the oracle
`random_delete_idx`, the draw the loop settles on. -/
def generate_neighbour_delete_oligo (t : Tabu) (ws ry : WSRY)
    (random_delete_idx : Nat) (skip_tabu_check : Bool) : Option (WSRY × WSRY) :=
  if t.is_tabu (ws.path.getD random_delete_idx []) = false || skip_tabu_check then
    let nws := update_depth { ws with path := ws.path.eraseIdx random_delete_idx }
    let nry := update_depth { ry with path := ry.path.eraseIdx random_delete_idx }
    if nws.depth = nry.depth then some (nws, nry) else none
  else none

/-- `Tabu.generate_neighbour_shift_oligo` of `tabu.py`: pop the oligo at the
oracle-chosen index from both paths, then try reinsertion at each index of
the (oracle-shuffled) candidate list until the depth lists agree, restoring
the popped state between attempts (which the functional embedding does by
construction). -/
def generate_neighbour_shift_oligo (t : Tabu) (ws ry : WSRY)
    (random_oligo_idx : Nat) (shuffleIdx : List Nat → List Nat) :
    Option (WSRY × WSRY) :=
  if t.is_tabu (ws.path.getD random_oligo_idx []) = false then
    let oligo_ws := ws.path.getD random_oligo_idx []
    let oligo_ry := ry.path.getD random_oligo_idx []
    let ws1 := update_depth { ws with path := ws.path.eraseIdx random_oligo_idx }
    let ry1 := update_depth { ry with path := ry.path.eraseIdx random_oligo_idx }
    (shuffleIdx (possible_idxs ws1)).findSome? fun i =>
      let nws := update_depth { ws1 with path := ws1.path.insertIdx i oligo_ws }
      let nry := update_depth { ry1 with path := ry1.path.insertIdx i oligo_ry }
      if nws.depth = nry.depth then some (nws, nry) else none
  else none

/-- The cluster-start scan of the two cluster moves of `tabu.py`: walk
i = 1..len(path)−2 with the `begin_of_cluster` flag, collecting each i that
starts a maximal run with `depth[i] == depth[i+1] == perfect_overlap`. -/
def cluster_scan_go (depth : List Nat) (po : Nat) : List Nat → Bool → List Nat
  | [], _ => []
  | i :: rest, begin_of_cluster =>
    if depth.getD i 0 = po then
      if begin_of_cluster = false ∧ depth.getD (i + 1) 0 = po then
        i :: cluster_scan_go depth po rest true
      else
        cluster_scan_go depth po rest begin_of_cluster
    else
      cluster_scan_go depth po rest false

/-- The `cluster_indexes` list computed by the delete-cluster and
shift-cluster moves of `tabu.py`. -/
def cluster_indexes (w : WSRY) : List Nat :=
  cluster_scan_go w.depth w.perfect_overlap
    ((List.range (w.path.length - 1 - 1)).map (· + 1)) false

/-- The state of the cluster-popping `while` loop of the cluster moves: both
paths, both depth lists, and the popped oligos collected in order (only the
shift move reads the collected lists). -/
structure PopState where
  wsp : List Oligo
  wsd : List Nat
  ryp : List Oligo
  ryd : List Nat
  cw : List Oligo
  cr : List Oligo
deriving DecidableEq, Repr

/-- The `while random_cluster_idx < len(ws.path) and
ws.depth[random_cluster_idx] == perfect_overlap` pop loop of the cluster
moves, popping path and depth of both spaces at the fixed index; `fuel`
(instantiated with the initial path length) bounds the loop, which removes
one element per iteration. -/
def pop_cluster (po i : Nat) : Nat → PopState → PopState
  | 0, st => st
  | fuel + 1, st =>
    if i < st.wsp.length ∧ st.wsd.getD i 0 = po then
      pop_cluster po i fuel
        { wsp := st.wsp.eraseIdx i
          wsd := st.wsd.eraseIdx i
          ryp := st.ryp.eraseIdx i
          ryd := st.ryd.eraseIdx i
          cw := st.cw ++ [st.wsp.getD i []]
          cr := st.cr ++ [st.ryp.getD i []] }
    else st

/-- `Tabu.generate_neigbour_delete_cluster` of `tabu.py` (source spelling):
pick a cluster start (oracle `pick` models `random.choice`), pop the whole
run from both spaces, recompute depths, and return the pair only when the
depth lists agree. -/
def generate_neigbour_delete_cluster (ws ry : WSRY) (pick : Nat) :
    Option (WSRY × WSRY) :=
  if cluster_indexes ws = [] then none
  else
    let random_cluster_idx :=
      (cluster_indexes ws).getD (pick % (cluster_indexes ws).length) 0
    let st := pop_cluster ws.perfect_overlap random_cluster_idx ws.path.length
      ⟨ws.path, ws.depth, ry.path, ry.depth, [], []⟩
    let nws := update_depth { ws with path := st.wsp, depth := st.wsd }
    let nry := update_depth { ry with path := st.ryp, depth := st.ryd }
    if nws.depth = nry.depth then some (nws, nry) else none

/-- The reversed-index reinsertion loop of the shift-cluster move: inserting
`cluster[i]` at the same index for i = len−1 down to 0 places the whole block
there in its original order. -/
def insert_block (p : List Oligo) (idx : Nat) (cluster : List Oligo) : List Oligo :=
  cluster.reverse.foldl (fun acc o => acc.insertIdx idx o) p

/-- `Tabu.generate_neighbour_shift_cluster` of `tabu.py`: pop a whole cluster
run as in the delete move, then reinsert the block at the oracle-chosen index
`ins` (the draw the `while True` retry loop settles on, an index in
1..len(path) different from the cluster start), recompute depths, and return
the pair only when the depth lists agree. -/
def generate_neighbour_shift_cluster (ws ry : WSRY) (pick ins : Nat) :
    Option (WSRY × WSRY) :=
  if cluster_indexes ws = [] then none
  else
    let random_cluster_idx :=
      (cluster_indexes ws).getD (pick % (cluster_indexes ws).length) 0
    let st := pop_cluster ws.perfect_overlap random_cluster_idx ws.path.length
      ⟨ws.path, ws.depth, ry.path, ry.depth, [], []⟩
    let nws := update_depth { ws with path := insert_block st.wsp ins st.cw, depth := st.wsd }
    let nry := update_depth { ry with path := insert_block st.ryp ins st.cr, depth := st.ryd }
    if nws.depth = nry.depth then some (nws, nry) else none

/-- The per-iteration random draws consumed by the (hardcoded) shift-cluster
move inside `generate_neighbours`. -/
structure SCOracle where
  pick : Nat
  ins : Nat

/-- The `for _ in range(self.number_of_neighbours)` loop of
`Tabu.generate_neighbours`: each iteration runs the hardcoded
`Moves.SHIFT_CLUSTER` branch; a produced candidate is appended only when its
WS `path` is not already in the dedup set (seeded with the current
solution's path), in which case its path joins the set. -/
def generate_neighbours_go (t : Tabu) (ws ry : WSRY) (oracle : Nat → SCOracle) :
    Nat → Nat → List (List Oligo) → List (WSRY × WSRY) → List (WSRY × WSRY)
  | _, 0, _, acc => acc
  | i, rem + 1, seen, acc =>
    match generate_neighbour_shift_cluster ws ry (oracle i).pick (oracle i).ins with
    | none => generate_neighbours_go t ws ry oracle (i + 1) rem seen acc
    | some nb =>
      if nb.1.path ∈ seen then generate_neighbours_go t ws ry oracle (i + 1) rem seen acc
      else generate_neighbours_go t ws ry oracle (i + 1) rem (nb.1.path :: seen) (acc ++ [nb])

/-- `Tabu.generate_neighbours` of `tabu.py`.  The move choice is hardcoded to
`Moves.SHIFT_CLUSTER` in the source (the other four branches are commented
out), and the not-used/not-tabu oligo lists it computes feed only the unused
insert branch; the dedup set is seeded with `str(ws.path)`, modelled as the
path itself since Python's repr is injective on lists of strings. -/
def generate_neighbours (t : Tabu) (ws ry : WSRY) (oracle : Nat → SCOracle) :
    List (WSRY × WSRY) :=
  generate_neighbours_go t ws ry oracle 0 t.number_of_neighbours [ws.path] []

/-- Python's `s[k:]` on a possibly negative `k`: a negative start counts from
the end and clamps at 0. -/
def py_slice_from (s : Oligo) (k : Int) : Oligo :=
  if k < 0 then s.drop (s.length - (-k).toNat) else s.drop k.toNat

/-- The three-list `zip` used by `Tabu.reconstruct_dna`. -/
def zip3 : List Oligo → List Oligo → List Nat → List (Oligo × Oligo × Nat)
  | a :: as_, b :: bs, c :: cs => (a, b, c) :: zip3 as_ bs cs
  | _, _, _ => []

/-- `Tabu.reconstruct_dna` of `tabu.py`: combine each WS/RY path pair with
the alphabet combiner and append `connected[depth - len(ws_oligo):]`.  The
combiner is `connect_WS_RY` of `main.py`, which per the spec is the same
4-entry positionwise lookup the missing `wsry.py` provides as
`connect_ws_ry`. -/
def reconstruct_dna (ws ry : WSRY) : Oligo :=
  (zip3 ws.path ry.path ws.depth).foldl
    (fun acc t =>
      acc ++ py_slice_from (connect_WS_RY t.1 t.2.1) ((t.2.2 : Int) - (t.1.length : Int)))
    []

/-- The per-neighbour guard of `Tabu.find_solution` in `tabu.py`: a neighbour
is skipped when its two depth lists differ, and skipped when its rendered DNA
is longer than `r.length`; the survivors are the candidates the loop keeps
evaluating (the source breaks off mid-loop, accepting nothing further). -/
def find_solution_evaluated (rLength : Nat) (neighbours : List (WSRY × WSRY)) :
    List (WSRY × WSRY) :=
  neighbours.filter
    (fun nb =>
      decide (nb.1.depth = nb.2.depth) &&
      !(decide (rLength < (reconstruct_dna nb.1 nb.2).length)))

end Meta

namespace Ex

open Exact Meta

/-- Concrete oligos used by the worked examples. -/
def acgt : Oligo := ['A', 'C', 'G', 'T']

/-- The WS reduction of `acgt` (last nucleotide preserved). -/
def wsst : Oligo := ['W', 'S', 'S', 'T']

/-- The RY reduction of `acgt` (last nucleotide preserved). -/
def ryrt : Oligo := ['R', 'Y', 'R', 'T']

/-- The combination of the two reductions of `acgt`. -/
def acg : Oligo := ['A', 'C', 'G']

/-- The worked overlap example of the spec, suffix side. -/
def gattaca : Oligo := ['G', 'A', 'T', 'T', 'A', 'C', 'A']

/-- The worked overlap example of the spec, prefix side. -/
def acaggt : Oligo := ['A', 'C', 'A', 'G', 'G', 'T']

/-- The no-overlap example of the spec. -/
def aaaa : Oligo := ['A', 'A', 'A', 'A']

/-- The second half of the no-overlap example of the spec. -/
def tttt : Oligo := ['T', 'T', 'T', 'T']

/-- An equal-length pair with a genuine length-3 suffix/prefix match. -/
def aaca : Oligo := ['A', 'A', 'C', 'A']

/-- The other half of the length-3 match example. -/
def acag : Oligo := ['A', 'C', 'A', 'G']

/-- The `WSRY` state `WSRY_init` builds from `acgt` with no probe cells, WS side. -/
def wsC : Exact.WSRY :=
  { dict_convertion := Exact.nucleotide_to_weak_strong
    start_converted := wsst
    cells_dict := [(wsst, true)]
    path := [wsst]
    depth := [0] }

/-- The `WSRY` state `WSRY_init` builds from `acgt` with no probe cells, RY side. -/
def ryC : Exact.WSRY :=
  { dict_convertion := Exact.nucleotide_to_purine_pyrimidine
    start_converted := ryrt
    cells_dict := [(ryrt, true)]
    path := [ryrt]
    depth := [0] }

/-- The trivial experiment record: target length 4, empty probes. -/
def rd4 : Exact.RD := ⟨4, [], []⟩

/-- An experiment record whose target is not yet reached: length 10, empty probes. -/
def rd10 : Exact.RD := ⟨10, [], []⟩

/-- A concrete extension accepted by the `add_ongoing_vertices_to_list` guard. -/
def e5 : Exact.Ext := ⟨['A', 'B'], 2, ['C', 'B'], 2, 4⟩

/-- Generic two-character oligos for the tabu move examples. -/
def ab : Oligo := ['A', 'B']

/-- Reversal of `ab`; overlaps `ab` by one character in both orders. -/
def ba : Oligo := ['B', 'A']

/-- An oligo with no overlap against `ab` or `ba`. -/
def cdo : Oligo := ['C', 'D']

/-- A tabu state with empty tabu lists and a one-candidate neighbourhood budget. -/
def t0 : Meta.Tabu := ⟨2, [], [], 5, 1⟩

/-- A single-oligo tabu path (perfect overlap 1). -/
def W0 : Meta.WSRY := ⟨[ab], [0], [], 1⟩

/-- A two-oligo tabu path with overlap 1. -/
def W1 : Meta.WSRY := ⟨[ab, ba], [0, 1], [], 1⟩

/-- A three-oligo path forming one cluster (both depths at the perfect overlap). -/
def W3 : Meta.WSRY := ⟨[ab, ba, ab], [0, 1, 1], [], 1⟩

/-- A four-oligo path with a two-element cluster followed by a non-overlapping tail. -/
def W4 : Meta.WSRY := ⟨[ab, ba, ab, cdo], [0, 1, 1, 0], [], 1⟩

/-- The candidate the shift-cluster move produces from `W4` with oracle picks 0 and 2. -/
def V : Meta.WSRY := ⟨[ab, cdo, ba, ab], [0, 0, 0, 1], [], 1⟩

/-- The oracle stream that makes the shift-cluster move succeed on `W4`. -/
def sc_oracle : Nat → Meta.SCOracle := fun _ => ⟨0, 2⟩

/-- `wsC` after `reconstruct` classifies its trailing anchor nucleotide. -/
def wsF : Exact.WSRY := { wsC with start_converted := ['W', 'S', 'S', 'W'] }

/-- `ryC` after `reconstruct` classifies its trailing anchor nucleotide. -/
def ryF : Exact.WSRY := { ryC with start_converted := ['R', 'Y', 'R', 'Y'] }

/-- A WS-space tabu path over the reduced alphabet with a preserved anchor. -/
def Wws : Meta.WSRY := ⟨[['W', 'S', 'T']], [0], [], 2⟩

/-- The matching RY-space tabu path. -/
def Wry : Meta.WSRY := ⟨[['R', 'Y', 'T']], [0], [], 2⟩

end Ex

open Exact Meta

lemma connect_eq_filterMap (a : Oligo) :
    ∀ b : Oligo, connect_WS_RY a b =
      (a.zip b).filterMap (fun p => combine_pair p.1 p.2) := by
  induction a with
  | nil => intro b; simp [connect_WS_RY]
  | cons cw ws ih =>
    intro b
    cases b with
    | nil => simp [connect_WS_RY]
    | cons cr rs =>
      simp only [connect_WS_RY, List.zip_cons_cons, List.filterMap_cons, combine_pair]
      split_ifs <;> simp [combine_pair, ih rs, *]

lemma combine_pair_same (c : Char) : combine_pair c c = none := by
  unfold combine_pair
  split_ifs with h1 h2 h3 h4
  · rcases h1 with ⟨rfl, h⟩; exact absurd h (by decide)
  · rcases h2 with ⟨rfl, h⟩; exact absurd h (by decide)
  · rcases h3 with ⟨rfl, h⟩; exact absurd h (by decide)
  · rcases h4 with ⟨rfl, h⟩; exact absurd h (by decide)
  · rfl

lemma roundtrip_aux :
    ∀ (s a b : Oligo),
      (∀ c ∈ s, c = 'A' ∨ c = 'C' ∨ c = 'G' ∨ c = 'T') →
      convert_oligo nucleotide_to_weak_strong s = some a →
      convert_oligo nucleotide_to_purine_pyrimidine s = some b →
      connect_WS_RY a b = s.dropLast := by
  intro s
  induction s with
  | nil => intro a b _ ha _; simp [convert_oligo] at ha
  | cons c rest ih =>
    intro a b hP ha hb
    cases rest with
    | nil =>
      simp only [convert_oligo, Option.some.injEq] at ha hb
      subst ha; subst hb
      rw [connect_eq_filterMap]
      simp [combine_pair_same]
    | cons c2 rest2 =>
      have hc := hP c (by simp)
      have hrest : ∀ x ∈ c2 :: rest2, x = 'A' ∨ x = 'C' ∨ x = 'G' ∨ x = 'T' :=
        fun x hx => hP x (by simp [hx])
      rcases hc with hc | hc | hc | hc <;> subst hc
      · have ha' : (convert_oligo nucleotide_to_weak_strong (c2 :: rest2)).map ('W' :: ·) = some a := ha
        have hb' : (convert_oligo nucleotide_to_purine_pyrimidine (c2 :: rest2)).map ('R' :: ·) = some b := hb
        rw [Option.map_eq_some'] at ha' hb'
        obtain ⟨a', ha2, rfl⟩ := ha'
        obtain ⟨b', hb2, rfl⟩ := hb'
        have hcc : connect_WS_RY ('W' :: a') ('R' :: b') = 'A' :: connect_WS_RY a' b' := by
          simp [connect_WS_RY]
        rw [hcc, ih a' b' hrest ha2 hb2]
        simp [List.dropLast]
      · have ha' : (convert_oligo nucleotide_to_weak_strong (c2 :: rest2)).map ('S' :: ·) = some a := ha
        have hb' : (convert_oligo nucleotide_to_purine_pyrimidine (c2 :: rest2)).map ('Y' :: ·) = some b := hb
        rw [Option.map_eq_some'] at ha' hb'
        obtain ⟨a', ha2, rfl⟩ := ha'
        obtain ⟨b', hb2, rfl⟩ := hb'
        have hcc : connect_WS_RY ('S' :: a') ('Y' :: b') = 'C' :: connect_WS_RY a' b' := by
          simp [connect_WS_RY]
        rw [hcc, ih a' b' hrest ha2 hb2]
        simp [List.dropLast]
      · have ha' : (convert_oligo nucleotide_to_weak_strong (c2 :: rest2)).map ('S' :: ·) = some a := ha
        have hb' : (convert_oligo nucleotide_to_purine_pyrimidine (c2 :: rest2)).map ('R' :: ·) = some b := hb
        rw [Option.map_eq_some'] at ha' hb'
        obtain ⟨a', ha2, rfl⟩ := ha'
        obtain ⟨b', hb2, rfl⟩ := hb'
        have hcc : connect_WS_RY ('S' :: a') ('R' :: b') = 'G' :: connect_WS_RY a' b' := by
          simp [connect_WS_RY]
        rw [hcc, ih a' b' hrest ha2 hb2]
        simp [List.dropLast]
      · have ha' : (convert_oligo nucleotide_to_weak_strong (c2 :: rest2)).map ('W' :: ·) = some a := ha
        have hb' : (convert_oligo nucleotide_to_purine_pyrimidine (c2 :: rest2)).map ('Y' :: ·) = some b := hb
        rw [Option.map_eq_some'] at ha' hb'
        obtain ⟨a', ha2, rfl⟩ := ha'
        obtain ⟨b', hb2, rfl⟩ := hb'
        have hcc : connect_WS_RY ('W' :: a') ('Y' :: b') = 'T' :: connect_WS_RY a' b' := by
          simp [connect_WS_RY]
        rw [hcc, ih a' b' hrest ha2 hb2]
        simp [List.dropLast]

/-- C2: the spec requires `check_overlap` to return the largest k whose
suffix/prefix match exists (3 for GATTACA/ACAGGT, 3 for AACA/ACAG) and 0
when none exists.  The code returns 0 on every input: `max_overlap` is
initialized to 0, never updated, and is the value returned when a match is
found.  The last conjunct exhibits the genuine length-3 match that the code
nevertheless answers 0 for. -/
theorem check_overlap_returns_zero_on_match :
    check_overlap Ex.gattaca Ex.acaggt 6 = 0 ∧
    check_overlap Ex.aaaa Ex.tttt 4 = 0 ∧
    check_overlap Ex.aaca Ex.acag 4 = 0 ∧
    List.drop 1 Ex.aaca = List.take 3 Ex.acag := by
  refine ⟨by decide, by decide, by decide, by decide⟩

/-- C3 counterexample: a symbol pair outside the four valid combinations
does not fail with an `InconsistentEncoding` error — `connect_WS_RY` has no
failure mode at all; the pair is silently skipped, output is still produced,
and later positions keep being translated. -/
theorem connect_WS_RY_invalid_pair_yields_output :
    connect_WS_RY ['A'] ['A'] = [] ∧
    connect_WS_RY ['S', 'A', 'S'] ['R', 'A', 'Y'] = ['G', 'C'] := by
  refine ⟨by decide, by decide⟩

/-- C3 (amended): `connect_WS_RY` maps (S,R) to G, (S,Y) to C, (W,R) to A
and (W,Y) to T, and any symbol pair outside these four combinations is
silently skipped (it contributes nothing to the output) instead of failing
with an `InconsistentEncoding` error. -/
theorem connect_WS_RY_four_entries_else_skip :
    connect_WS_RY ['S'] ['R'] = ['G'] ∧
    connect_WS_RY ['S'] ['Y'] = ['C'] ∧
    connect_WS_RY ['W'] ['R'] = ['A'] ∧
    connect_WS_RY ['W'] ['Y'] = ['T'] ∧
    ∀ cw cr : Char, combine_pair cw cr = none → connect_WS_RY [cw] [cr] = [] := by
  refine ⟨by decide, by decide, by decide, by decide, ?_⟩
  intro cw cr h
  rw [connect_eq_filterMap]
  simp [List.filterMap_cons, h]

/-- Witness for C3 (amended) at the concrete invalid pair (A,A). -/
theorem connect_WS_RY_four_entries_else_skip_witness :
    connect_WS_RY ['A'] ['A'] = ([] : Oligo) :=
  connect_WS_RY_four_entries_else_skip.2.2.2.2 'A' 'A' (by decide)

/-- C4 counterexample: reducing ACGT to both spaces and combining
position-wise yields ACG, not ACGT — the preserved full-alphabet last
character forms the pair (T,T), which is outside the four valid
combinations and is dropped. -/
theorem roundtrip_acgt_drops_last :
    convert_oligo nucleotide_to_weak_strong Ex.acgt = some Ex.wsst ∧
    convert_oligo nucleotide_to_purine_pyrimidine Ex.acgt = some Ex.ryrt ∧
    connect_WS_RY Ex.wsst Ex.ryrt = Ex.acg ∧
    Ex.acg ≠ Ex.acgt := by
  refine ⟨by decide, by decide, by decide, by decide⟩

/-- C4 (amended): for every nonempty full-alphabet sequence over
{A,C,G,T}, reducing under both maps with `convert_oligo` and combining
position-wise with `connect_WS_RY` yields the sequence with its final
nucleotide dropped (the empty sequence makes `convert_oligo` fail, so
nonemptiness is implied by the conversion hypotheses). -/
theorem roundtrip_combines_to_dropLast :
    ∀ (s a b : Oligo),
      (∀ c ∈ s, c = 'A' ∨ c = 'C' ∨ c = 'G' ∨ c = 'T') →
      convert_oligo nucleotide_to_weak_strong s = some a →
      convert_oligo nucleotide_to_purine_pyrimidine s = some b →
      connect_WS_RY a b = s.dropLast :=
  roundtrip_aux

/-- Witness for C4 (amended) at the concrete sequence ACGT. -/
theorem roundtrip_combines_to_dropLast_witness :
    connect_WS_RY Ex.wsst Ex.ryrt = Ex.acgt.dropLast :=
  roundtrip_combines_to_dropLast Ex.acgt Ex.wsst Ex.ryrt
    (by decide) (by decide) (by decide)

/-- C10: `connect_WS_RY` is total — it equals a `filterMap` of the 4-entry
lookup over the zipped inputs, so it returns exactly one nucleotide for each
zipped position whose pair is one of SR, SY, WR, WY and silently omits every
other position; its output is never longer than either input, and on two
reduced oligos sharing a preserved full-alphabet last character the output is
strictly shorter than both. -/
theorem connect_WS_RY_total_filterMap :
    (∀ a b : Oligo,
        connect_WS_RY a b = (a.zip b).filterMap (fun p => combine_pair p.1 p.2) ∧
        (connect_WS_RY a b).length ≤ min a.length b.length) ∧
    connect_WS_RY Ex.wsst Ex.ryrt = Ex.acg ∧
    Ex.acg.length < Ex.wsst.length ∧ Ex.acg.length < Ex.ryrt.length := by
  refine ⟨fun a b => ⟨connect_eq_filterMap a b, ?_⟩, by decide, by decide, by decide⟩
  rw [connect_eq_filterMap]
  calc ((a.zip b).filterMap (fun p => combine_pair p.1 p.2)).length
      ≤ (a.zip b).length := List.length_filterMap_le _ _
    _ = min a.length b.length := List.length_zip a b

/-- C6 counterexample: on the trivial input (start ACGT, target length 4,
empty probes) `reconstruct` does reach the RECONSTRUCTED state immediately,
but the rendered sequence is ACG, not the starting oligo ACGT — the anchor
pair (T,T) is dropped by `connect_WS_RY`. -/
theorem trivial_reconstruct_drops_last_nucleotide :
    WSRY_init nucleotide_to_weak_strong Ex.acgt [] = some Ex.wsC ∧
    WSRY_init nucleotide_to_purine_pyrimidine Ex.acgt [] = some Ex.ryC ∧
    reconstruct false 4 [] false Ex.wsC Ex.ryC Ex.rd4 =
      some (.done6 true 4 Ex.acg Ex.wsC Ex.ryC Ex.rd4) ∧
    Ex.acg ≠ Ex.acgt := by
  refine ⟨by decide, by decide, by decide, by decide⟩

/-- C6 (amended): on the trivial input with a length-4 starting oligo over
{A,C,G,T}, target length 4, and empty probes, `reconstruct` immediately
reaches the RECONSTRUCTED state, and the rendered sequence equals the
starting oligo with its final nucleotide dropped. -/
theorem trivial_reconstruct_renders_dropLast :
    ∀ (oligo : Oligo) (ws ry : Exact.WSRY),
      oligo.length = 4 →
      (∀ c ∈ oligo, c = 'A' ∨ c = 'C' ∨ c = 'G' ∨ c = 'T') →
      WSRY_init nucleotide_to_weak_strong oligo [] = some ws →
      WSRY_init nucleotide_to_purine_pyrimidine oligo [] = some ry →
      reconstruct false 4 [] false ws ry Ex.rd4 =
        some (.done6 true 4 oligo.dropLast ws ry Ex.rd4) := by
  intro oligo ws ry _hlen hP hws hry
  cases hcw : convert_oligo nucleotide_to_weak_strong oligo with
  | none => unfold WSRY_init at hws; rw [hcw] at hws; simp at hws
  | some scw =>
    cases hcr : convert_oligo nucleotide_to_purine_pyrimidine oligo with
    | none => unfold WSRY_init at hry; rw [hcr] at hry; simp at hry
    | some scr =>
      unfold WSRY_init at hws hry
      rw [hcw] at hws
      rw [hcr] at hry
      simp only [Option.some.injEq] at hws hry
      subst hws
      subst hry
      have hdrop := roundtrip_aux oligo scw scr hP hcw hcr
      simp [reconstruct, Ex.rd4, hdrop]

/-- Witness for C6 (amended) at the concrete starting oligo ACGT. -/
theorem trivial_reconstruct_renders_dropLast_witness :
    reconstruct false 4 [] false Ex.wsC Ex.ryC Ex.rd4 =
      some (.done6 true 4 Ex.acgt.dropLast Ex.wsC Ex.ryC Ex.rd4) :=
  trivial_reconstruct_renders_dropLast Ex.acgt Ex.wsC Ex.ryC
    (by decide) (by decide) (by decide) (by decide)

/-- C7 counterexample: with empty probes (so both overlapings dictionaries
are empty) `reconstruct` does return without raising, but it sets
`is_reconstructed = True`, i.e. it marks the branch as having completed the
reconstruction, contrary to the claim. -/
theorem empty_overlapings_sets_reconstructed_flag :
    resultIsRec (reconstruct false 4 [] false Ex.wsC Ex.ryC Ex.rd10) = some true ∧
    reconstruct false 4 [] false Ex.wsC Ex.ryC Ex.rd10 ≠ none := by
  refine ⟨by decide, by decide⟩

/-- C7 (amended): whenever either overlapings dictionary comes out empty,
`reconstruct` returns the 7-tuple without raising, leaving
`reconstructed_dna` unchanged — so the reconstruction has not actually been
rendered — but it sets `is_reconstructed` to `True`, marking the branch as
completed; failure is observable only through the unchanged
`reconstructed_dna`, not through the flag. -/
theorem empty_overlapings_returns_stuck_flag_true :
    ∀ (reconstructed_dna_length : Nat) (dna : Oligo) (s : Bool)
      (ws ry ws2 ry2 : Exact.WSRY) (rd : RD) (ows ory : List (Oligo × Nat)),
      rd.length ≠ reconstructed_dna_length →
      flip_last nucleotide_to_weak_strong ws = some ws2 →
      flip_last nucleotide_to_purine_pyrimidine ry = some ry2 →
      search_overlapings ws2.start_converted rd.WS_probe_cells ws2.cells_dict = some ows →
      search_overlapings ry2.start_converted rd.RY_probe_cells ry2.cells_dict = some ory →
      (ows = [] ∨ ory = []) →
      reconstruct false reconstructed_dna_length dna s ws ry rd =
        some (.stuck7 true reconstructed_dna_length dna s ws2 ry2 rd) := by
  intro len dna s ws ry ws2 ry2 rd ows ory hne hf1 hf2 hs1 hs2 hemp
  simp [reconstruct, hf1, hf2, hs1, hs2, hne, Or.symm hemp]

/-- Witness for C7 (amended) at the concrete empty-probe input. -/
theorem empty_overlapings_returns_stuck_flag_true_witness :
    reconstruct false 4 [] false Ex.wsC Ex.ryC Ex.rd10 =
      some (.stuck7 true 4 [] false Ex.wsF Ex.ryF Ex.rd10) :=
  empty_overlapings_returns_stuck_flag_true 4 [] false Ex.wsC Ex.ryC Ex.wsF Ex.ryF
    Ex.rd10 [] [] (by decide) (by decide) (by decide) (by decide) (by decide)
    (Or.inl rfl)

lemma ongoing_inner_sound (max_ry rdLength : Nat) (cws : Oligo) (vws : Nat) :
    ∀ (l : List (Oligo × Nat)) (recLen : Nat) (e : Ext),
      e ∈ (ongoing_inner max_ry rdLength cws vws l recLen).1 →
      e.cell_ws = cws ∧ e.overlap_ws = vws ∧
      (e.cell_ry, e.overlap_ry) ∈ l ∧ e.overlap_ry = max_ry ∧
      e.overlap_ws = e.overlap_ry ∧
      e.cell_ry.getLast? = e.cell_ws.getLast? ∧
      e.len_before + (e.cell_ws.length - e.overlap_ws) ≤ rdLength := by
  intro l
  induction l with
  | nil => intro recLen e he; simp [ongoing_inner] at he
  | cons hd tl ih =>
    intro recLen e he
    obtain ⟨cry, vry⟩ := hd
    by_cases hg : vry ≠ max_ry ∨ vws ≠ vry ∨ cry.getLast? ≠ cws.getLast? ∨
        rdLength < recLen + (cws.length - vws)
    · rw [ongoing_inner, if_pos hg] at he
      obtain ⟨h1, h2, h3, h4, h5, h6, h7⟩ := ih recLen e he
      exact ⟨h1, h2, List.mem_cons_of_mem _ h3, h4, h5, h6, h7⟩
    · rw [ongoing_inner, if_neg hg] at he
      push_neg at hg
      obtain ⟨hg1, hg2, hg3, hg4⟩ := hg
      rcases List.mem_cons.mp he with rfl | he'
      · exact ⟨rfl, rfl, List.mem_cons_self _ _, hg1, hg2, hg3, hg4⟩
      · obtain ⟨h1, h2, h3, h4, h5, h6, h7⟩ := ih _ e he'
        exact ⟨h1, h2, List.mem_cons_of_mem _ h3, h4, h5, h6, h7⟩

lemma ongoing_outer_sound (max_ws max_ry rdLength : Nat) (ory : List (Oligo × Nat)) :
    ∀ (l : List (Oligo × Nat)) (recLen : Nat) (e : Ext),
      e ∈ (ongoing_outer max_ws max_ry rdLength ory l recLen).1 →
      e.overlap_ws = max_ws ∧
      (e.cell_ry, e.overlap_ry) ∈ ory ∧ e.overlap_ry = max_ry ∧
      e.overlap_ws = e.overlap_ry ∧
      e.cell_ry.getLast? = e.cell_ws.getLast? ∧
      e.len_before + (e.cell_ws.length - e.overlap_ws) ≤ rdLength := by
  intro l
  induction l with
  | nil => intro recLen e he; simp [ongoing_outer] at he
  | cons hd tl ih =>
    intro recLen e he
    obtain ⟨cws, vws⟩ := hd
    by_cases hg : vws ≠ max_ws
    · rw [ongoing_outer, if_pos hg] at he
      exact ih recLen e he
    · rw [ongoing_outer, if_neg hg] at he
      push_neg at hg
      rcases List.mem_append.mp he with he' | he'
      · obtain ⟨h1, h2, h3, h4, h5, h6, h7⟩ :=
          ongoing_inner_sound max_ry rdLength cws vws ory recLen e he'
        exact ⟨h2.trans hg, h3, h4, h5, h6, h7⟩
      · exact ih _ e he'

/-- C5: every extension performed by the candidate loop of
`add_ongoing_vertices_to_list` uses a pair of cells drawn from the
overlapings dictionaries such that the WS overlap equals the WS probe's
global maximum, the RY overlap equals the RY probe's global maximum, the two
overlaps are equal, the two cells' preserved full-alphabet last characters
agree, and the reconstructed length after the extension does not exceed the
experiment's target length. -/
theorem add_ongoing_extension_guard :
    ∀ (ows ory : List (Oligo × Nat)) (rdLength recLen : Nat) (e : Ext),
      e ∈ add_ongoing_extensions ows ory rdLength recLen →
      e.overlap_ws = max_value ows ∧ e.overlap_ry = max_value ory ∧
      e.overlap_ws = e.overlap_ry ∧
      e.cell_ry.getLast? = e.cell_ws.getLast? ∧
      e.len_before + (e.cell_ws.length - e.overlap_ws) ≤ rdLength := by
  intro ows ory rdLength recLen e he
  obtain ⟨h1, _, h3, h4, h5, h6⟩ :=
    ongoing_outer_sound (max_value ows) (max_value ory) rdLength ory ows recLen e he
  exact ⟨h1, h3, h4, h5, h6⟩

/-- Witness for C5 at a concrete one-pair overlapings instance. -/
theorem add_ongoing_extension_guard_witness :
    Ex.e5.overlap_ws = max_value [(Ex.ab, 2)] ∧
    Ex.e5.overlap_ry = max_value [(['C', 'B'], 2)] ∧
    Ex.e5.overlap_ws = Ex.e5.overlap_ry ∧
    Ex.e5.cell_ry.getLast? = Ex.e5.cell_ws.getLast? ∧
    Ex.e5.len_before + (Ex.e5.cell_ws.length - Ex.e5.overlap_ws) ≤ 10 :=
  add_ongoing_extension_guard [(Ex.ab, 2)] [(['C', 'B'], 2)] 10 4 Ex.e5 (by decide)

lemma find_solution_evaluated_sound (rLength : Nat)
    (neighbours : List (Meta.WSRY × Meta.WSRY)) :
    ∀ nb ∈ find_solution_evaluated rLength neighbours,
      nb.1.depth = nb.2.depth ∧ (reconstruct_dna nb.1 nb.2).length ≤ rLength := by
  intro nb hnb
  have h := List.of_mem_filter hnb
  simp only [Bool.and_eq_true, Bool.not_eq_true', decide_eq_true_eq,
    decide_eq_false_iff_not, Nat.not_lt] at h
  exact h

/-- C8: no candidate whose rendered length exceeds the target is accepted.
First conjunct: the exact search's extension guard keeps the accumulated
reconstructed length within `rd.length` at every extension it performs.
Second conjunct: the per-neighbour guard of `Tabu.find_solution` only lets a
neighbour be evaluated further when its rendered DNA is no longer than
`r.length` (neighbours with longer DNA are rejected with `continue`). -/
theorem accepted_candidates_length_bound :
    (∀ (ows ory : List (Oligo × Nat)) (rdLength recLen : Nat) (e : Ext),
        e ∈ add_ongoing_extensions ows ory rdLength recLen →
        e.len_before + (e.cell_ws.length - e.overlap_ws) ≤ rdLength) ∧
    (∀ (rLength : Nat) (neighbours : List (Meta.WSRY × Meta.WSRY))
        (nb : Meta.WSRY × Meta.WSRY),
        nb ∈ find_solution_evaluated rLength neighbours →
        (reconstruct_dna nb.1 nb.2).length ≤ rLength) := by
  constructor
  · intro ows ory rdLength recLen e he
    exact (ongoing_outer_sound (max_value ows) (max_value ory) rdLength ory ows
      recLen e he).2.2.2.2.2
  · intro rLength neighbours nb hnb
    exact (find_solution_evaluated_sound rLength neighbours nb hnb).2

/-- Witness for C8 at concrete inputs on both sides of the conjunction. -/
theorem accepted_candidates_length_bound_witness :
    (Ex.e5.len_before + (Ex.e5.cell_ws.length - Ex.e5.overlap_ws) ≤ 12) ∧
    (reconstruct_dna Ex.Wws Ex.Wry).length ≤ 10 :=
  ⟨accepted_candidates_length_bound.1 [(Ex.ab, 2)] [(['C', 'B'], 2)] 12 4 Ex.e5
      (by decide),
   accepted_candidates_length_bound.2 10 [(Ex.Wws, Ex.Wry)] (Ex.Wws, Ex.Wry)
      (by decide)⟩

lemma depth_guard_eq {nws nry : Meta.WSRY} {p : Meta.WSRY × Meta.WSRY}
    (h : (if nws.depth = nry.depth then some (nws, nry) else none) = some p) :
    p.1.depth = p.2.depth := by
  by_cases hd : nws.depth = nry.depth
  · rw [if_pos hd] at h
    cases h
    exact hd
  · rw [if_neg hd] at h
    cases h

lemma insert_oligo_depth_eq (ws ry : Meta.WSRY) (lws lry : List Oligo)
    (shuffle : List Oligo → List Oligo) (p : Meta.WSRY × Meta.WSRY)
    (h : generate_neighbour_insert_oligo ws ry lws lry shuffle = some p) :
    p.1.depth = p.2.depth := by
  unfold generate_neighbour_insert_oligo at h
  split at h
  · obtain ⟨ows_, _, h1⟩ := List.exists_of_findSome?_eq_some h
    obtain ⟨ory_, _, h2⟩ := List.exists_of_findSome?_eq_some h1
    split at h2
    · obtain ⟨idx, _, h3⟩ := List.exists_of_findSome?_eq_some h2
      exact depth_guard_eq h3
    · cases h2
  · cases h

lemma delete_oligo_depth_eq (t : Meta.Tabu) (ws ry : Meta.WSRY)
    (idx : Nat) (skip : Bool) (p : Meta.WSRY × Meta.WSRY)
    (h : generate_neighbour_delete_oligo t ws ry idx skip = some p) :
    p.1.depth = p.2.depth := by
  unfold generate_neighbour_delete_oligo at h
  split at h
  · exact depth_guard_eq h
  · cases h

lemma shift_oligo_depth_eq (t : Meta.Tabu) (ws ry : Meta.WSRY)
    (idx : Nat) (shuffleIdx : List Nat → List Nat) (p : Meta.WSRY × Meta.WSRY)
    (h : generate_neighbour_shift_oligo t ws ry idx shuffleIdx = some p) :
    p.1.depth = p.2.depth := by
  unfold generate_neighbour_shift_oligo at h
  split at h
  · obtain ⟨i, _, h1⟩ := List.exists_of_findSome?_eq_some h
    exact depth_guard_eq h1
  · cases h

lemma delete_cluster_depth_eq (ws ry : Meta.WSRY) (pick : Nat)
    (p : Meta.WSRY × Meta.WSRY)
    (h : generate_neigbour_delete_cluster ws ry pick = some p) :
    p.1.depth = p.2.depth := by
  unfold generate_neigbour_delete_cluster at h
  split at h
  · cases h
  · exact depth_guard_eq h

lemma shift_cluster_depth_eq (ws ry : Meta.WSRY) (pick ins : Nat)
    (p : Meta.WSRY × Meta.WSRY)
    (h : generate_neighbour_shift_cluster ws ry pick ins = some p) :
    p.1.depth = p.2.depth := by
  unfold generate_neighbour_shift_cluster at h
  split at h
  · cases h
  · exact depth_guard_eq h

lemma generate_neighbours_go_sound (t : Meta.Tabu) (ws ry : Meta.WSRY)
    (oracle : Nat → Meta.SCOracle) :
    ∀ (rem i : Nat) (seen : List (List Oligo)) (acc : List (Meta.WSRY × Meta.WSRY)),
      (∀ q ∈ acc, q.1.path ∈ seen) →
      acc.Pairwise (fun a b => a.1.path ≠ b.1.path) →
      (generate_neighbours_go t ws ry oracle i rem seen acc).length ≤ acc.length + rem ∧
      (generate_neighbours_go t ws ry oracle i rem seen acc).Pairwise
        (fun a b => a.1.path ≠ b.1.path) ∧
      ∀ q ∈ generate_neighbours_go t ws ry oracle i rem seen acc,
        q ∈ acc ∨ (q.1.path ∉ seen ∧ q.1.depth = q.2.depth) := by
  intro rem
  induction rem with
  | zero =>
    intro i seen acc hin hpw
    refine ⟨by simp [generate_neighbours_go], by simpa [generate_neighbours_go] using hpw, ?_⟩
    intro q hq
    simp only [generate_neighbours_go] at hq
    exact Or.inl hq
  | succ rem ih =>
    intro i seen acc hin hpw
    cases hsc : generate_neighbour_shift_cluster ws ry (oracle i).pick (oracle i).ins with
    | none =>
      simp only [generate_neighbours_go, hsc]
      obtain ⟨hl, hp, hq⟩ := ih (i + 1) seen acc hin hpw
      exact ⟨hl.trans (by omega), hp, hq⟩
    | some nb =>
      simp only [generate_neighbours_go, hsc]
      by_cases hmem : nb.1.path ∈ seen
      · rw [if_pos hmem]
        obtain ⟨hl, hp, hq⟩ := ih (i + 1) seen acc hin hpw
        exact ⟨hl.trans (by omega), hp, hq⟩
      · rw [if_neg hmem]
        have hin' : ∀ q ∈ acc ++ [nb], q.1.path ∈ nb.1.path :: seen := by
          intro q hq
          rcases List.mem_append.mp hq with h | h
          · exact List.mem_cons_of_mem _ (hin q h)
          · simp only [List.mem_singleton] at h
            subst h
            exact List.mem_cons_self _ _
        have hpw' : (acc ++ [nb]).Pairwise (fun a b => a.1.path ≠ b.1.path) := by
          rw [List.pairwise_append]
          refine ⟨hpw, List.pairwise_singleton _ _, ?_⟩
          intro a ha b hb
          simp only [List.mem_singleton] at hb
          subst hb
          intro hab
          exact hmem (hab ▸ hin a ha)
        obtain ⟨hl, hp, hq⟩ := ih (i + 1) (nb.1.path :: seen) (acc ++ [nb]) hin' hpw'
        have hlen : (acc ++ [nb]).length = acc.length + 1 := by simp
        rw [hlen] at hl
        refine ⟨hl.trans (by omega), hp, ?_⟩
        intro q hq2
        rcases hq q hq2 with h | h
        · rcases List.mem_append.mp h with h' | h'
          · exact Or.inl h'
          · simp only [List.mem_singleton] at h'
            subst h'
            exact Or.inr ⟨hmem, shift_cluster_depth_eq ws ry (oracle i).pick (oracle i).ins q hsc⟩
        · exact Or.inr ⟨fun hx => h.1 (List.mem_cons_of_mem _ hx), h.2⟩

/-- C1: every candidate pair any of the five tabu moves returns — and hence
every candidate pair `generate_neighbours` returns — satisfies the central
consistency invariant: the WS depth list equals the RY depth list
(each move ends by recomputing both depth lists and returning the pair only
when they are equal; oracle arguments stand for all possible random draws). -/
theorem tabu_moves_preserve_depth_equality :
    ∀ (t : Meta.Tabu) (ws ry : Meta.WSRY) (lws lry : List Oligo)
      (shuffle : List Oligo → List Oligo) (shuffleIdx : List Nat → List Nat)
      (idxDel idxShift pick ins : Nat) (skip : Bool)
      (oracle : Nat → Meta.SCOracle) (p : Meta.WSRY × Meta.WSRY),
      (generate_neighbour_insert_oligo ws ry lws lry shuffle = some p →
        p.1.depth = p.2.depth) ∧
      (generate_neighbour_delete_oligo t ws ry idxDel skip = some p →
        p.1.depth = p.2.depth) ∧
      (generate_neighbour_shift_oligo t ws ry idxShift shuffleIdx = some p →
        p.1.depth = p.2.depth) ∧
      (generate_neigbour_delete_cluster ws ry pick = some p →
        p.1.depth = p.2.depth) ∧
      (generate_neighbour_shift_cluster ws ry pick ins = some p →
        p.1.depth = p.2.depth) ∧
      (∀ nb ∈ generate_neighbours t ws ry oracle, nb.1.depth = nb.2.depth) := by
  intro t ws ry lws lry shuffle shuffleIdx idxDel idxShift pick ins skip oracle p
  refine ⟨insert_oligo_depth_eq ws ry lws lry shuffle p,
          delete_oligo_depth_eq t ws ry idxDel skip p,
          shift_oligo_depth_eq t ws ry idxShift shuffleIdx p,
          delete_cluster_depth_eq ws ry pick p,
          shift_cluster_depth_eq ws ry pick ins p, ?_⟩
  intro nb hnb
  obtain ⟨-, -, hq⟩ := generate_neighbours_go_sound t ws ry oracle
    t.number_of_neighbours 0 [ws.path] [] (by simp) (by simp)
  rcases hq nb hnb with h | h
  · cases h
  · exact h.2

/-- Witness for C1: concrete states on which each of the five moves (and the
neighbourhood generator) actually produces a candidate, with the depth
equality read off through the theorem. -/
theorem tabu_moves_preserve_depth_equality_witness :
    (generate_neighbour_insert_oligo Ex.W0 Ex.W0 [Ex.ba] [Ex.ba] id =
        some (Ex.W1, Ex.W1) ∧ Ex.W1.depth = Ex.W1.depth) ∧
    (generate_neighbour_delete_oligo Ex.t0 Ex.W1 Ex.W1 1 false =
        some (Ex.W0, Ex.W0) ∧ Ex.W0.depth = Ex.W0.depth) ∧
    (generate_neighbour_shift_oligo Ex.t0 Ex.W1 Ex.W1 1 id =
        some (Ex.W1, Ex.W1) ∧ Ex.W1.depth = Ex.W1.depth) ∧
    (generate_neigbour_delete_cluster Ex.W3 Ex.W3 0 =
        some (Ex.W0, Ex.W0) ∧ Ex.W0.depth = Ex.W0.depth) ∧
    (generate_neighbour_shift_cluster Ex.W4 Ex.W4 0 2 =
        some (Ex.V, Ex.V) ∧ Ex.V.depth = Ex.V.depth) ∧
    ((Ex.V, Ex.V) ∈ generate_neighbours Ex.t0 Ex.W4 Ex.W4 Ex.sc_oracle ∧
        Ex.V.depth = Ex.V.depth) := by
  refine ⟨⟨by decide, ?_⟩, ⟨by decide, ?_⟩, ⟨by decide, ?_⟩, ⟨by decide, ?_⟩,
    ⟨by decide, ?_⟩, ⟨by decide, ?_⟩⟩
  · exact (tabu_moves_preserve_depth_equality Ex.t0 Ex.W0 Ex.W0 [Ex.ba] [Ex.ba]
      id id 1 1 0 2 false Ex.sc_oracle (Ex.W1, Ex.W1)).1 (by decide)
  · exact (tabu_moves_preserve_depth_equality Ex.t0 Ex.W1 Ex.W1 [] [] id id 1 1
      0 2 false Ex.sc_oracle (Ex.W0, Ex.W0)).2.1 (by decide)
  · exact (tabu_moves_preserve_depth_equality Ex.t0 Ex.W1 Ex.W1 [] [] id id 1 1
      0 2 false Ex.sc_oracle (Ex.W1, Ex.W1)).2.2.1 (by decide)
  · exact (tabu_moves_preserve_depth_equality Ex.t0 Ex.W3 Ex.W3 [] [] id id 1 1
      0 2 false Ex.sc_oracle (Ex.W0, Ex.W0)).2.2.2.1 (by decide)
  · exact (tabu_moves_preserve_depth_equality Ex.t0 Ex.W4 Ex.W4 [] [] id id 1 1
      0 2 false Ex.sc_oracle (Ex.V, Ex.V)).2.2.2.2.1 (by decide)
  · exact (tabu_moves_preserve_depth_equality Ex.t0 Ex.W4 Ex.W4 [] [] id id 1 1
      0 2 false Ex.sc_oracle (Ex.V, Ex.V)).2.2.2.2.2 (Ex.V, Ex.V) (by decide)

/-- C9: `generate_neighbours` returns at most `number_of_neighbours`
candidate pairs, no two returned candidates share the same `path` sequence
(deduplication is by path identity against the set seeded with the current
solution's path), and no returned candidate equals the current solution's
path; a candidate discarded as a duplicate is simply not appended, so it
never counts among the returned neighbours. -/
theorem generate_neighbours_count_and_distinct :
    ∀ (t : Meta.Tabu) (ws ry : Meta.WSRY) (oracle : Nat → Meta.SCOracle),
      (generate_neighbours t ws ry oracle).length ≤ t.number_of_neighbours ∧
      (generate_neighbours t ws ry oracle).Pairwise
        (fun a b => a.1.path ≠ b.1.path) ∧
      ∀ nb ∈ generate_neighbours t ws ry oracle, nb.1.path ≠ ws.path := by
  intro t ws ry oracle
  obtain ⟨hl, hp, hq⟩ := generate_neighbours_go_sound t ws ry oracle
    t.number_of_neighbours 0 [ws.path] [] (by simp) (by simp)
  refine ⟨by simpa using hl, hp, ?_⟩
  intro nb hnb
  rcases hq nb hnb with h | h
  · cases h
  · intro hx
    exact h.1 (by simp [hx])

/-- Witness for C9 at a concrete run that returns one candidate. -/
theorem generate_neighbours_count_and_distinct_witness :
    (generate_neighbours Ex.t0 Ex.W4 Ex.W4 Ex.sc_oracle).length ≤
      Ex.t0.number_of_neighbours ∧
    Ex.V.path ≠ Ex.W4.path :=
  ⟨(generate_neighbours_count_and_distinct Ex.t0 Ex.W4 Ex.W4 Ex.sc_oracle).1,
   (generate_neighbours_count_and_distinct Ex.t0 Ex.W4 Ex.W4 Ex.sc_oracle).2.2
     (Ex.V, Ex.V) (by decide)⟩
